import Mathlib

set_option maxRecDepth 4000000

/-!
Shallow embedding of the NaijaCyberGuardian analysis pipeline (src/bot.py)
and verification of the claims about it.

Numeric values are modelled as exact rationals (`ℚ`); Python's decimal
constants (0.18, 0.25, ...) are exact rationals in both the source and the
spec, so the arithmetic of the scoring formulas is captured exactly.
Network requests (`requests.head`/`requests.get`), the URL parser
(`urllib.parse.urlparse(...).hostname`) and the ML classifier are external
effects; they enter the embedding as explicit oracle parameters.
-/

namespace NaijaBot

/-! ### Character/string primitives (Python `startswith`, `endswith`, `in`, `lower`) -/

/-- Prefix test on character lists. -/
def isPrefixL : List Char → List Char → Bool
  | [], _ => true
  | _ :: _, [] => false
  | p :: ps, c :: cs => p == c && isPrefixL ps cs

/-- Substring occurrence test on character lists (Python `pat in txt`). -/
def occursIn (pat : List Char) : List Char → Bool
  | [] => pat.isEmpty
  | c :: cs => isPrefixL pat (c :: cs) || occursIn pat cs

/-- Python `pat in txt` on strings. -/
def containsSub (pat txt : String) : Bool := occursIn pat.data txt.data

/-- Python `s.startswith(pre)`. -/
def startsWithL (pre s : String) : Bool := isPrefixL pre.data s.data

/-- Python `s.endswith(suf)`. -/
def endsWithL (suf s : String) : Bool := isPrefixL suf.data.reverse s.data.reverse

/-- Python `s.lower()` (ASCII; the vocabularies are ASCII). -/
def lowerStr (s : String) : String := String.mk (s.data.map Char.toLower)

/-- Python `s.upper()` (ASCII). -/
def upperStr (s : String) : String := String.mk (s.data.map Char.toUpper)

/-- Python truthiness of an optional string (`None` and `""` are falsy). -/
def optStrTruthy : Option String → Bool
  | none => false
  | some s => s != ""

/-! ### Configuration vocabularies (src/bot.py lines 70-88) -/

def KEYWORDS : List String :=
  ["bvn", "verify", "cbn", "urgent", "account suspended", "bank login",
   "otp", "one time", "you have won", "congratulations", "click here",
   "tinyurl", "bit.ly", "borrow", "loan approved", "no bvn", "no doc",
   "transfer now", "password", "reset", "blocked", "suspended"]

def PIDGIN_PATTERNS : List String :=
  ["bros", "abeg", "send me", "help me", "i need money", "naira", "pay small"]

def SUSPICIOUS_TLDS : List String :=
  [".xyz", ".top", ".club", ".online", ".info", ".ru", ".tk"]

def SHORTENER_HOSTS : List String :=
  ["bit.ly", "tinyurl.com", "t.co", "goo.gl", "ow.ly", "rebrand.ly", "shorturl.at"]

def SUSPICIOUS_SUBSTRINGS : List String :=
  ["verify", "login", "secure", "confirm", "update", "account", "service"]

/-! ### Keyword scorer (src/bot.py `compute_keyword_score`, lines 169-182) -/

structure KeywordResult where
  score : ℚ
  keywords : List String
  pidgin : List String
deriving DecidableEq

def compute_keyword_score (text : String) : KeywordResult :=
  let txt := lowerStr text
  let matched := KEYWORDS.filter (fun kw => containsSub kw txt)
  let matched_pidgin := PIDGIN_PATTERNS.filter (fun p => containsSub p txt)
  let score := min 1.0 ((matched.length : ℚ) * 0.18 + (matched_pidgin.length : ℚ) * 0.08)
  { score := score, keywords := matched, pidgin := matched_pidgin }

/-! ### URL normalizer (src/bot.py `normalize_url`, lines 110-116) -/

def normalize_url (u : String) : String :=
  let u := if startsWithL "www." u then "http://" ++ u else u
  if startsWithL "http://" u || startsWithL "https://" u then u else "http://" ++ u

/-! ### URL extractor (src/bot.py `URL_REGEX` / `extract_urls`, lines 103-108)

The regex `(https?://[^\s]+|www\.[^\s]+)` with `re.IGNORECASE` is modelled
by a left-to-right scanner: at each position, try a case-insensitive
`https://`, `http://` or `www.` prefix followed by a non-empty maximal run
of non-whitespace characters; on a match, emit it and continue after it
(`findall` returns non-overlapping matches). -/

/-- Python regex `\s` on the ASCII whitespace characters. -/
def pySpace (c : Char) : Bool :=
  c == ' ' || c == '\t' || c == '\n' || c == '\r' || c == '\x0b' || c == '\x0c'

/-- Case-insensitive prefix test against a lowercase pattern. -/
def ciStartsL (pat : List Char) (cs : List Char) : Bool :=
  isPrefixL pat ((cs.take pat.length).map Char.toLower)

/-- After a scheme/`www.` prefix of length `n`, take the greedy non-whitespace
run required by `[^\s]+` (at least one character). -/
def urlMatchFrom (n : Nat) (cs : List Char) : Option (List Char × List Char) :=
  let pre := cs.take n
  let rest0 := cs.drop n
  let run := rest0.takeWhile (fun c => !pySpace c)
  let rest := rest0.dropWhile (fun c => !pySpace c)
  if run = [] then none else some (pre ++ run, rest)

/-- Attempt a URL match starting at the head of `cs`. -/
def matchURLAt (cs : List Char) : Option (List Char × List Char) :=
  if ciStartsL "https://".data cs then urlMatchFrom 8 cs
  else if ciStartsL "http://".data cs then urlMatchFrom 7 cs
  else if ciStartsL "www.".data cs then urlMatchFrom 4 cs
  else none

/-- Fuelled scan; every step consumes at least one character, so fuel equal to
the input length is enough. -/
def findURLsAux : Nat → List Char → List (List Char)
  | 0, _ => []
  | _ + 1, [] => []
  | fuel + 1, c :: cs =>
    match matchURLAt (c :: cs) with
    | some (m, rest) => m :: findURLsAux fuel rest
    | none => findURLsAux fuel cs

def extract_urls (text : String) : List String :=
  (findURLsAux text.data.length text.data).map String.mk

/-! ### URL expander (src/bot.py `expand_url`, lines 118-131)

The two network calls (`requests.head`, `requests.get`) are oracles taking
the (normalized) url and the timeout and returning either a response or a
raised exception, modelled as `Except`. -/

structure Response where
  status_code : Nat
  location : Option String
  url : String
deriving DecidableEq

def expand_url (head get : String → Nat → Except String Response)
    (url : String) (timeout : Nat) : String :=
  match head (normalize_url url) timeout with
  | Except.error _ => url
  | Except.ok resp =>
    if resp.status_code ≠ 0 ∧ optStrTruthy resp.location then resp.location.getD ""
    else
      match get (normalize_url url) timeout with
      | Except.error _ => url
      | Except.ok resp2 => resp2.url

/-! ### Hostname / domain heuristics (src/bot.py lines 133-167) -/

/-- Wrapper around the external `urlparse(...).hostname` oracle
(src/bot.py `domain_from_url`): `parsed.hostname or ""`, with any parse
failure folded into the oracle returning `none`. -/
def domain_from_url (hostname : String → Option String) (url : String) : String :=
  (hostname (normalize_url url)).getD ""

structure DomainHeuristic where
  domain : String
  suspicious_tld : Bool
  has_dash : Bool
  length : Nat
  suspicious_substrings : List String
  original_url : String
  expanded_url : String
  is_shortener : Bool
  link_score : ℚ
deriving DecidableEq

/-- src/bot.py `domain_heuristics` (WHOIS capability unavailable: the optional
whois fields are never set and never read by any claim). -/
def domain_heuristics (domain : String) : DomainHeuristic :=
  let heur : DomainHeuristic :=
    { domain := domain, suspicious_tld := false, has_dash := false,
      length := domain.length, suspicious_substrings := [],
      original_url := "", expanded_url := "", is_shortener := false, link_score := 0 }
  if domain = "" then heur
  else
    let lower := lowerStr domain
    let heur := { heur with
      suspicious_tld := SUSPICIOUS_TLDS.any (fun tld => endsWithL tld lower) }
    let heur := { heur with has_dash := containsSub "-" domain }
    { heur with
      suspicious_substrings := SUSPICIOUS_SUBSTRINGS.filter (fun sub => containsSub sub lower) }

/-- src/bot.py `shortener_check`: `any(s in domain.lower() for s in SHORTENER_HOSTS)`. -/
def shortener_check (domain : String) : Bool :=
  SHORTENER_HOSTS.any (fun s => containsSub s (lowerStr domain))

/-! ### ML result (src/bot.py `ml_classify`, lines 184-196)

The classifier is an external capability; the pipeline only sees its result
dictionary, modelled by this structure (`available=False` results carry
`label := none` and `score := 0`). -/

structure MLResult where
  available : Bool
  label : Option String
  score : ℚ
deriving DecidableEq

/-- The risk-indicating label set of src/bot.py line 240. -/
def riskLabels : List String := ["NEGATIVE", "LABEL_1", "SUSPICIOUS", "FAKE"]

/-- `ml.get("label").upper() in ("NEGATIVE", "LABEL_1", "SUSPICIOUS", "FAKE")`. -/
def riskLabel (l : Option String) : Bool := riskLabels.contains (upperStr (l.getD ""))

/-! ### Score fusion and rounding (src/bot.py lines 234-242) -/

/-- Python `round(q, 3)` modelled as rounding to the nearest multiple of
1/1000 (the tie-breaking rule is never exercised by any claim). -/
def round3 (q : ℚ) : ℚ := ((Rat.floor (q * 1000 + 1/2) : ℤ) : ℚ) / 1000

/-- The suspicious-URL counter accumulated in the analysis loop
(src/bot.py lines 230-231): entries with `link_score > 0.3`. -/
def url_suspicious_count (infos : List DomainHeuristic) : Nat :=
  (infos.filter (fun h => decide (h.link_score > 0.3))).length

/-- The score-fusion step of `analyze_text` (src/bot.py lines 234-241),
before the final rounding. -/
def fuse_score (kwScore : ℚ) (url_infos : List DomainHeuristic) (ml : MLResult) : ℚ :=
  let final_score := kwScore * 0.6 + (url_suspicious_count url_infos : ℚ) * 0.25
  if ml.available then
    if optStrTruthy ml.label ∧ ml.score ≠ 0 then
      if riskLabel ml.label then min 1.0 (final_score + 0.2 * ml.score) else final_score
    else final_score
  else final_score

/-! ### Per-URL processing and the full pipeline (src/bot.py `analyze_text`) -/

/-- The body of the per-URL loop of `analyze_text` (src/bot.py lines 212-229). -/
def process_url (expand : String → String) (hostname : String → Option String)
    (u : String) : DomainHeuristic :=
  let expanded := expand u
  let domain := domain_from_url hostname expanded
  let heur := domain_heuristics domain
  let heur := { heur with
    original_url := u, expanded_url := expanded, is_shortener := shortener_check domain }
  let link_score : ℚ := 0.0
  let link_score := if heur.is_shortener then link_score + 0.5 else link_score
  let link_score := if heur.suspicious_tld then link_score + 0.3 else link_score
  let link_score := if heur.has_dash then link_score + 0.1 else link_score
  let link_score := if heur.suspicious_substrings ≠ [] then link_score + 0.2 else link_score
  { heur with link_score := min 1.0 link_score }

/-- Python `f"{q:.2f}"` for the ML reason sentence. -/
def format2 (q : ℚ) : String :=
  let n : ℤ := Rat.floor (q * 100 + 1/2)
  let sgn := if n < 0 then "-" else ""
  let m := n.natAbs
  sgn ++ toString (m / 100) ++ "." ++ (if m % 100 < 10 then "0" else "") ++ toString (m % 100)

structure AnalysisResult where
  text : String
  urls : List String
  keyword : KeywordResult
  ml : MLResult
  url_infos : List DomainHeuristic
  final_score : ℚ
  reasons : List String
deriving DecidableEq

/-- src/bot.py `analyze_text` (lines 198-255), parameterized by the three
external effects: the URL expander (network), the hostname parser, and the
ML classification result.  The `timestamp` field is wall-clock I/O and is
omitted; the reasons list mirrors the sequential `append` calls. -/
def analyze_text (expand : String → String) (hostname : String → Option String)
    (ml : MLResult) (text : String) : AnalysisResult :=
  let urls := extract_urls text
  let kw := compute_keyword_score text
  let url_infos := urls.map (process_url expand hostname)
  let final_score := round3 (fuse_score kw.score url_infos ml)
  let reasons : List String := []
  let reasons := if kw.keywords ≠ [] then
      reasons ++ ["Contains suspicious keywords: " ++ String.intercalate ", " kw.keywords]
    else reasons
  let reasons := if kw.pidgin ≠ [] then
      reasons ++ ["Contains informal/pidgin patterns: " ++ String.intercalate ", " kw.pidgin]
    else reasons
  let reasons := url_infos.foldl
    (fun acc ui => if ui.link_score > 0.25 then
        acc ++ ["Suspicious link detected: " ++ ui.original_url ++ " -> " ++ ui.expanded_url]
      else acc) reasons
  let reasons := if ml.available ∧ optStrTruthy ml.label then
      reasons ++ ["ML classifier: " ++ ml.label.getD "" ++ " (" ++ format2 ml.score ++ ")"]
    else reasons
  { text := text, urls := urls, keyword := kw, ml := ml, url_infos := url_infos,
    final_score := final_score, reasons := reasons }

/-! ### Verdict tiers (src/bot.py `analyze_handler`, lines 359-367) -/

def verdict_of (score : ℚ) : String :=
  if score ≥ 0.7 then "SCAM"
  else if score ≥ 0.35 then "SUSPICIOUS"
  else "SAFE"

/-! ### Concrete environments used by witnesses and counterexamples -/

/-- Environment model of `urllib.parse.urlparse(u).hostname` on simple
http(s) URLs: the (lowercased) text between the scheme and the first
`/`, `:`, `?` or `#`; `none` for scheme-less input. -/
def hostHelper (u : String) : Option String :=
  if startsWithL "http://" u then
    some (lowerStr (String.mk ((u.data.drop 7).takeWhile
      (fun c => c != '/' && c != ':' && c != '?' && c != '#'))))
  else if startsWithL "https://" u then
    some (lowerStr (String.mk ((u.data.drop 8).takeWhile
      (fun c => c != '/' && c != ':' && c != '?' && c != '#'))))
  else none

/-- A network oracle on which every request raises (e.g. a timeout). -/
def failReq : String → Nat → Except String Response := fun _ _ => Except.error "timeout"

/-- The ML-capability-unavailable result (src/bot.py `ml_classify` when
`classifier is None`). -/
def mlOff : MLResult := { available := false, label := none, score := 0 }

/-- An available ML result with a risk-indicating label but score `0.0`
(src/bot.py `ml_classify` returns `float(result.get("score", 0.0))`). -/
def mlZero : MLResult := { available := true, label := some "NEGATIVE", score := 0 }

/-- A message carrying five shortener links and otherwise only the
`bit.ly` keyword. -/
def cexText : String :=
  "http://bit.ly http://bit.ly http://bit.ly http://bit.ly http://bit.ly"

/-- The heuristic record the pipeline produces for a single `bit.ly` link. -/
def suspInfo : DomainHeuristic := process_url (fun u => u) (fun _ => some "bit.ly") "http://bit.ly"

/-! ### Auxiliary lemmas -/

lemma ratFloor_eq_floor (q : ℚ) : Rat.floor q = ⌊q⌋ := by
  rw [Rat.floor_def', Rat.floor_def]

lemma round3_eq_floor (q : ℚ) : round3 q = ((⌊q * 1000 + 1/2⌋ : ℤ) : ℚ) / 1000 := by
  unfold round3; rw [ratFloor_eq_floor]

lemma round3_mono {a b : ℚ} (h : a ≤ b) : round3 a ≤ round3 b := by
  rw [round3_eq_floor, round3_eq_floor]
  have h1 : ⌊a * 1000 + 1/2⌋ ≤ ⌊b * 1000 + 1/2⌋ := Int.floor_mono (by linarith)
  have h2 : ((⌊a * 1000 + 1/2⌋ : ℤ) : ℚ) ≤ ((⌊b * 1000 + 1/2⌋ : ℤ) : ℚ) := by exact_mod_cast h1
  linarith

lemma round3_nonneg {q : ℚ} (h : 0 ≤ q) : 0 ≤ round3 q := by
  have := round3_mono h
  rwa [show round3 0 = 0 from by with_unfolding_all decide] at this

lemma round3_le_one {q : ℚ} (h : q ≤ 1) : round3 q ≤ 1 := by
  have := round3_mono h
  rwa [show round3 1 = 1 from by with_unfolding_all decide] at this

lemma keyword_score_bounds (text : String) :
    0 ≤ (compute_keyword_score text).score ∧ (compute_keyword_score text).score ≤ 1 := by
  simp only [compute_keyword_score]
  constructor
  · exact le_min (by norm_num) (by positivity)
  · exact (min_le_left _ _).trans (by norm_num)

lemma isPrefixL_append (p l : List Char) : isPrefixL p (p ++ l) = true := by
  induction p with
  | nil => rfl
  | cons c cs ih => simp [isPrefixL, ih]

lemma isPrefixL_cons_ne {a b : Char} (hne : (a == b) = false) (ps cs : List Char) :
    isPrefixL (a :: ps) (b :: cs) = false := by
  simp [isPrefixL, hne]

lemma isPrefixL_head_eq {a b : Char} {ps cs : List Char}
    (h : isPrefixL (a :: ps) (b :: cs) = true) : a = b := by
  simp only [isPrefixL, Bool.and_eq_true, beq_iff_eq] at h
  exact h.1

lemma startsWithL_http_append (u : String) : startsWithL "http://" ("http://" ++ u) = true := by
  unfold startsWithL
  exact isPrefixL_append "http://".data u.data

lemma www_head (u : String) (h : startsWithL "www." u = true) : ∃ cs, u.data = 'w' :: cs := by
  unfold startsWithL at h
  cases hd : u.data with
  | nil => rw [hd] at h; exact absurd h (by decide)
  | cons c cs =>
    rw [hd] at h
    have hc : 'w' = c := isPrefixL_head_eq h
    subst hc
    exact ⟨cs, rfl⟩

lemma riskLabel_truthy {l : Option String} (h : riskLabel l = true) : optStrTruthy l = true := by
  cases l with
  | none => exact absurd h (by decide)
  | some s =>
    by_cases hs : s = ""
    · subst hs; exact absurd h (by decide)
    · simp [optStrTruthy, hs]

/-- The fusion formula exactly as the claim (and spec §4.6) words it: the
ML boost fires whenever ML is available and its label is risk-indicating. -/
def fuse_score_claim (kwScore : ℚ) (url_infos : List DomainHeuristic) (ml : MLResult) : ℚ :=
  let base := kwScore * 0.6 + (url_suspicious_count url_infos : ℚ) * 0.25
  if ml.available = true ∧ riskLabel ml.label = true then min 1 (base + 0.2 * ml.score)
  else base

/-- The fusion formula amended to match the code: the ML boost additionally
requires `mlResult.score ≠ 0` (Python truthiness of `ml.get("score")`). -/
def fuse_score_claim_fixed (kwScore : ℚ) (url_infos : List DomainHeuristic) (ml : MLResult) : ℚ :=
  let base := kwScore * 0.6 + (url_suspicious_count url_infos : ℚ) * 0.25
  if ml.available = true ∧ riskLabel ml.label = true ∧ ml.score ≠ 0 then
    min 1 (base + 0.2 * ml.score)
  else base

lemma fuse_score_bounds (kwS : ℚ) (infos : List DomainHeuristic) (ml : MLResult)
    (h0 : 0 ≤ kwS) (h1 : kwS ≤ 1) (hm0 : 0 ≤ ml.score)
    (hc : url_suspicious_count infos ≤ 1) :
    0 ≤ fuse_score kwS infos ml ∧ fuse_score kwS infos ml ≤ 1 := by
  have hcq : (url_suspicious_count infos : ℚ) ≤ 1 := by exact_mod_cast hc
  have hcq0 : (0 : ℚ) ≤ (url_suspicious_count infos : ℚ) := Nat.cast_nonneg _
  have hb0 : 0 ≤ kwS * 0.6 + (url_suspicious_count infos : ℚ) * 0.25 := by nlinarith
  have hb1 : kwS * 0.6 + (url_suspicious_count infos : ℚ) * 0.25 ≤ 1 := by nlinarith
  unfold fuse_score
  split_ifs with ha hl hr
  · refine ⟨le_min (by norm_num) (by nlinarith), ?_⟩
    exact (min_le_left _ _).trans (by norm_num)
  · exact ⟨hb0, hb1⟩
  · exact ⟨hb0, hb1⟩
  · exact ⟨hb0, hb1⟩

lemma ite_append_singleton {α : Type} (c : Prop) [Decidable c] (l : List α) (x : α) :
    (if c then l ++ [x] else l) = l ++ (if c then [x] else []) := by
  split <;> simp

lemma foldl_filter_append {α β : Type} (p : α → Prop) [DecidablePred p] (f : α → β) :
    ∀ (l : List α) (acc : List β),
      l.foldl (fun acc ui => if p ui then acc ++ [f ui] else acc) acc
        = acc ++ (l.filter (fun ui => decide (p ui))).map f := by
  intro l
  induction l with
  | nil => intro acc; simp
  | cons x xs ih =>
    intro acc
    by_cases hx : p x
    · simp [List.filter_cons, hx, ih, List.append_assoc]
    · simp [List.filter_cons, hx, ih]

lemma analyze_url_infos (expand : String → String) (hostname : String → Option String)
    (ml : MLResult) (text : String) :
    (analyze_text expand hostname ml text).url_infos
      = (extract_urls text).map (process_url expand hostname) := rfl

lemma analyze_final_score (expand : String → String) (hostname : String → Option String)
    (ml : MLResult) (text : String) :
    (analyze_text expand hostname ml text).final_score
      = round3 (fuse_score (compute_keyword_score text).score
          ((extract_urls text).map (process_url expand hostname)) ml) := rfl

lemma link_score_spec_aux (expand : String → String) (hostname : String → Option String)
    (u : String) :
    (process_url expand hostname u).link_score
      = min 1 (0.5 * (if (process_url expand hostname u).is_shortener then (1:ℚ) else 0)
          + 0.3 * (if (process_url expand hostname u).suspicious_tld then (1:ℚ) else 0)
          + 0.1 * (if (process_url expand hostname u).has_dash then (1:ℚ) else 0)
          + 0.2 * (if (process_url expand hostname u).suspicious_substrings ≠ [] then (1:ℚ) else 0))
    ∧ 0 ≤ (process_url expand hostname u).link_score
    ∧ (process_url expand hostname u).link_score ≤ 1 := by
  simp only [process_url]
  set d := domain_from_url hostname (expand u) with hd
  cases ha : shortener_check d <;>
    cases hb : (domain_heuristics d).suspicious_tld <;>
      cases hc : (domain_heuristics d).has_dash <;>
        by_cases hs : (domain_heuristics d).suspicious_substrings = [] <;>
          simp [ha, hb, hc, hs] <;> norm_num [min_def]

lemma fuse_eq_fixed : ∀ (kwS : ℚ) (infos : List DomainHeuristic) (ml : MLResult),
    fuse_score kwS infos ml = fuse_score_claim_fixed kwS infos ml := by
  intro kwS infos ml
  simp only [fuse_score, fuse_score_claim_fixed]
  by_cases h1 : ml.available = true
  · by_cases h3 : riskLabel ml.label = true
    · by_cases hs : ml.score ≠ 0
      · rw [if_pos h1, if_pos ⟨riskLabel_truthy h3, hs⟩, if_pos h3, if_pos ⟨h1, h3, hs⟩]
        norm_num
      · rw [if_pos h1, if_neg (fun h => hs h.2), if_neg (fun h => hs h.2.2)]
    · by_cases h2 : optStrTruthy ml.label = true ∧ ml.score ≠ 0
      · rw [if_pos h1, if_pos h2, if_neg h3, if_neg (fun h => h3 h.2.1)]
      · rw [if_pos h1, if_neg h2, if_neg (fun h => h3 h.2.1)]
  · rw [if_neg h1, if_neg (fun h => h1 h.1)]

lemma foldl_reasons (l : List DomainHeuristic) (acc : List String) :
    l.foldl (fun acc ui => if ui.link_score > 0.25 then
        acc ++ ["Suspicious link detected: " ++ ui.original_url ++ " -> " ++ ui.expanded_url]
      else acc) acc
    = acc ++ (l.filter (fun ui => decide (ui.link_score > 0.25))).map
        (fun ui => "Suspicious link detected: " ++ ui.original_url ++ " -> " ++ ui.expanded_url) := by
  induction l generalizing acc with
  | nil => simp
  | cons x xs ih =>
    by_cases hx : x.link_score > 0.25
    · simp [List.filter_cons, hx, ih, List.append_assoc]
    · simp [List.filter_cons, hx, ih]

/-! ## The claims -/

/-- C1, counterexample: on a message with five shortener links, ML
unavailable, and all expansion requests failing soft, `analyze_text`
returns `finalScore = 1.358 > 1` — the claim that `finalScore ∈ [0,1]`
regardless of the number of suspicious URLs is false on the code. -/
theorem claim_C1_counterexample :
    (analyze_text (fun u => expand_url failReq failReq u 8) hostHelper mlOff cexText).final_score
      = 679/500
    ∧ ¬((analyze_text (fun u => expand_url failReq failReq u 8) hostHelper mlOff
          cexText).final_score ≤ 1) := by
  with_unfolding_all decide

/-- C1 (amended): `finalScore ∈ [0,1]` holds provided `mlResult.score ≥ 0`
(per the data model it is in `[0,1]`) and at most one extracted URL has
`linkScore > 0.3`; without that bound the unclamped base score can exceed 1. -/
theorem claim_C1_theorem :
    ∀ (expand : String → String) (hostname : String → Option String)
      (ml : MLResult) (text : String),
    0 ≤ ml.score →
    url_suspicious_count (analyze_text expand hostname ml text).url_infos ≤ 1 →
    0 ≤ (analyze_text expand hostname ml text).final_score
      ∧ (analyze_text expand hostname ml text).final_score ≤ 1 := by
  intro e hn ml t hm hc
  rw [analyze_url_infos] at hc
  rw [analyze_final_score]
  obtain ⟨hk0, hk1⟩ := keyword_score_bounds t
  obtain ⟨hf0, hf1⟩ := fuse_score_bounds _ _ _ hk0 hk1 hm hc
  exact ⟨round3_nonneg hf0, round3_le_one hf1⟩

/-- C1, witness: the amended bound evaluated on the keyword-free,
URL-free message `"hello"` with ML unavailable. -/
theorem claim_C1_witness :
    (0 ≤ mlOff.score
      ∧ url_suspicious_count
          (analyze_text (fun u => u) (fun _ => none) mlOff "hello").url_infos ≤ 1)
    ∧ (0 ≤ (analyze_text (fun u => u) (fun _ => none) mlOff "hello").final_score
        ∧ (analyze_text (fun u => u) (fun _ => none) mlOff "hello").final_score ≤ 1) :=
  ⟨⟨by with_unfolding_all decide, by with_unfolding_all decide⟩,
    claim_C1_theorem (fun u => u) (fun _ => none) mlOff "hello"
      (by with_unfolding_all decide) (by with_unfolding_all decide)⟩

/-- C2, counterexample: with `kwScore = 1`, five suspicious URL records and
an available ML result labelled `NEGATIVE` with score `0.0`, the code skips
the ML clamp (Python requires `ml.get("score")` truthy) and returns the
unclamped `1.85`, while the claim's formula returns `min(1, 1.85) = 1`. -/
theorem claim_C2_counterexample :
    fuse_score 1 (List.replicate 5 suspInfo) mlZero = 37/20
    ∧ fuse_score_claim 1 (List.replicate 5 suspInfo) mlZero = 1
    ∧ round3 (fuse_score 1 (List.replicate 5 suspInfo) mlZero)
        ≠ round3 (fuse_score_claim 1 (List.replicate 5 suspInfo) mlZero) := by
  with_unfolding_all decide

/-- C2 (amended): the fused score follows the claimed formula with the ML
boost additionally conditioned on `mlResult.score ≠ 0`; the pipeline's
`finalScore` is that fused value rounded to 3 decimals. -/
theorem claim_C2_theorem :
    (∀ (kwS : ℚ) (infos : List DomainHeuristic) (ml : MLResult),
      fuse_score kwS infos ml = fuse_score_claim_fixed kwS infos ml)
    ∧ (∀ (expand : String → String) (hostname : String → Option String)
        (ml : MLResult) (text : String),
      (analyze_text expand hostname ml text).final_score
        = round3 (fuse_score_claim_fixed (compute_keyword_score text).score
            (analyze_text expand hostname ml text).url_infos ml)) := by
  refine ⟨fuse_eq_fixed, ?_⟩
  intro e hn ml t
  rw [analyze_final_score, analyze_url_infos, fuse_eq_fixed]

/-- C3, counterexample: `"HTTP://a"` is scheme-qualified in the extractor's
case-insensitive sense, yet `normalize_url` does not return it unchanged
(it prepends `http://`, yielding `"http://HTTP://a"`). -/
theorem claim_C3_counterexample :
    ciStartsL "http://".data "HTTP://a".data = true
    ∧ normalize_url "HTTP://a" ≠ "HTTP://a" := by
  decide

/-- C3 (amended): `normalize_url` recognizes schemes case-sensitively:
exactly the strings starting with lowercase `http://` or `https://` are
returned unchanged; every other string — including `www.`-prefixed and
uppercase-scheme ones — gets `http://` prepended. -/
theorem claim_C3_theorem : ∀ u : String,
    normalize_url u =
      if startsWithL "http://" u || startsWithL "https://" u then u
      else "http://" ++ u := by
  intro u
  by_cases hw : startsWithL "www." u = true
  · obtain ⟨cs, hcs⟩ := www_head u hw
    have h1 : startsWithL "http://" u = false := by
      unfold startsWithL; rw [hcs]; exact isPrefixL_cons_ne (by decide) _ _
    have h2 : startsWithL "https://" u = false := by
      unfold startsWithL; rw [hcs]; exact isPrefixL_cons_ne (by decide) _ _
    have h3 : startsWithL "http://" ("http://" ++ u) = true := startsWithL_http_append u
    simp [normalize_url, hw, h1, h2, h3]
  · have hw' : startsWithL "www." u = false := by
      cases hww : startsWithL "www." u
      · rfl
      · exact absurd hww hw
    simp [normalize_url, hw']

/-- C4: `compute_keyword_score` returns
`min(1, 0.18·|formal matches| + 0.08·|pidgin matches|)`, where a term
matches iff it is a substring of the lowercased text; the match lists are
in vocabulary order (sublists of the vocabularies) with each term at most
once, and the empty string scores 0 with empty lists. -/
theorem claim_C4_theorem : ∀ text : String,
    (compute_keyword_score text).score
        = min 1 (0.18 * ((compute_keyword_score text).keywords.length : ℚ)
            + 0.08 * ((compute_keyword_score text).pidgin.length : ℚ))
    ∧ (∀ k, k ∈ (compute_keyword_score text).keywords ↔
        k ∈ KEYWORDS ∧ containsSub k (lowerStr text) = true)
    ∧ (∀ p, p ∈ (compute_keyword_score text).pidgin ↔
        p ∈ PIDGIN_PATTERNS ∧ containsSub p (lowerStr text) = true)
    ∧ (compute_keyword_score text).keywords.Sublist KEYWORDS
    ∧ (compute_keyword_score text).pidgin.Sublist PIDGIN_PATTERNS
    ∧ (compute_keyword_score text).keywords.Nodup
    ∧ (compute_keyword_score text).pidgin.Nodup
    ∧ (compute_keyword_score "").score = 0
    ∧ (compute_keyword_score "").keywords = []
    ∧ (compute_keyword_score "").pidgin = [] := by
  intro text
  refine ⟨?_, ?_, ?_, ?_, ?_, ?_, ?_, ?_, ?_, ?_⟩
  · simp only [compute_keyword_score]
    norm_num [mul_comm]
  · intro k
    simp [compute_keyword_score, List.mem_filter]
  · intro p
    simp [compute_keyword_score, List.mem_filter]
  · simp only [compute_keyword_score]
    exact List.filter_sublist _
  · simp only [compute_keyword_score]
    exact List.filter_sublist _
  · simp only [compute_keyword_score]
    exact (List.filter_sublist _).nodup (by decide)
  · simp only [compute_keyword_score]
    exact (List.filter_sublist _).nodup (by decide)
  · with_unfolding_all decide
  · with_unfolding_all decide
  · with_unfolding_all decide

/-- C5: every heuristic record in `urlInfos` carries
`linkScore = min(1, 0.5·[isShortener] + 0.3·[suspiciousTld] + 0.1·[hasDash]
+ 0.2·[suspiciousSubstrings ≠ []])`, which lies in `[0,1]`. -/
theorem claim_C5_theorem :
    ∀ (expand : String → String) (hostname : String → Option String)
      (ml : MLResult) (text : String) (h : DomainHeuristic),
    h ∈ (analyze_text expand hostname ml text).url_infos →
    (h.link_score = min 1 (0.5 * (if h.is_shortener then (1:ℚ) else 0)
        + 0.3 * (if h.suspicious_tld then (1:ℚ) else 0)
        + 0.1 * (if h.has_dash then (1:ℚ) else 0)
        + 0.2 * (if h.suspicious_substrings ≠ [] then (1:ℚ) else 0))
    ∧ 0 ≤ h.link_score ∧ h.link_score ≤ 1) := by
  intro e hn ml t h hmem
  rw [analyze_url_infos] at hmem
  obtain ⟨u, _, rfl⟩ := List.mem_map.mp hmem
  exact link_score_spec_aux e hn u

/-- C5, witness: the record produced for a single `bit.ly` link. -/
theorem claim_C5_witness :
    suspInfo ∈ (analyze_text (fun u => u) (fun _ => some "bit.ly") mlOff
        "http://bit.ly").url_infos
    ∧ (suspInfo.link_score = min 1 (0.5 * (if suspInfo.is_shortener then (1:ℚ) else 0)
        + 0.3 * (if suspInfo.suspicious_tld then (1:ℚ) else 0)
        + 0.1 * (if suspInfo.has_dash then (1:ℚ) else 0)
        + 0.2 * (if suspInfo.suspicious_substrings ≠ [] then (1:ℚ) else 0))
    ∧ 0 ≤ suspInfo.link_score ∧ suspInfo.link_score ≤ 1) :=
  ⟨by with_unfolding_all decide,
    claim_C5_theorem (fun u => u) (fun _ => some "bit.ly") mlOff "http://bit.ly" suspInfo
      (by with_unfolding_all decide)⟩

/-- C6: when the HEAD request raises, or the HEAD response does not carry a
usable redirect and the GET request raises, `expand_url` returns the
original raw input unchanged (and, being a total function, lets no
exception escape). -/
theorem claim_C6_theorem :
    ∀ (head get : String → Nat → Except String Response) (url : String) (timeout : Nat),
    ((∃ e, head (normalize_url url) timeout = Except.error e)
      ∨ ((∃ r, head (normalize_url url) timeout = Except.ok r
            ∧ ¬(r.status_code ≠ 0 ∧ optStrTruthy r.location = true))
          ∧ (∃ e, get (normalize_url url) timeout = Except.error e))) →
    expand_url head get url timeout = url := by
  intro head get url timeout h
  unfold expand_url
  rcases h with ⟨e, he⟩ | ⟨⟨r, hr, hcond⟩, ⟨e2, hge⟩⟩
  · rw [he]
  · rw [hr]
    dsimp only
    rw [if_neg hcond, hge]

/-- C6, witness: an oracle on which every request times out leaves
`"bit.ly/abc"` unchanged. -/
theorem claim_C6_witness :
    (∃ e, failReq (normalize_url "bit.ly/abc") 8 = Except.error e)
    ∧ expand_url failReq failReq "bit.ly/abc" 8 = "bit.ly/abc" :=
  ⟨⟨"timeout", rfl⟩,
    claim_C6_theorem failReq failReq "bit.ly/abc" 8 (Or.inl ⟨"timeout", rfl⟩)⟩

/-- C7: the verdict tier is SCAM iff `score ≥ 0.7`, SUSPICIOUS iff
`0.35 ≤ score < 0.7`, SAFE otherwise; in particular `0.35 ↦ SUSPICIOUS`,
`0.699 ↦ SUSPICIOUS`, `0.7 ↦ SCAM`. -/
theorem claim_C7_theorem : ∀ s : ℚ,
    (verdict_of s = "SCAM" ↔ 0.7 ≤ s)
    ∧ (verdict_of s = "SUSPICIOUS" ↔ 0.35 ≤ s ∧ s < 0.7)
    ∧ (verdict_of s = "SAFE" ↔ s < 0.35)
    ∧ verdict_of 0.35 = "SUSPICIOUS"
    ∧ verdict_of 0.699 = "SUSPICIOUS"
    ∧ verdict_of 0.7 = "SCAM" := by
  intro s
  have h1 : ((0.35:ℚ) ≤ 0.7) := by norm_num
  refine ⟨?_, ?_, ?_, by with_unfolding_all decide, by with_unfolding_all decide,
    by with_unfolding_all decide⟩ <;>
    · unfold verdict_of
      split_ifs with ha hb <;> push_neg at * <;> simp_all <;> try linarith

/-- C8: the reasons list is exactly the keyword sentence (iff a formal
keyword matched), then the pidgin sentence (iff a pidgin term matched),
then one sentence per URL with `linkScore > 0.25` in URL order, then the
ML sentence (iff the ML result is available and carries a label — a
non-None, non-empty label string, per Python truthiness). -/
theorem claim_C8_theorem :
    ∀ (expand : String → String) (hostname : String → Option String)
      (ml : MLResult) (text : String),
    (analyze_text expand hostname ml text).reasons =
      (if (compute_keyword_score text).keywords ≠ [] then
        ["Contains suspicious keywords: "
          ++ String.intercalate ", " (compute_keyword_score text).keywords] else [])
      ++ (if (compute_keyword_score text).pidgin ≠ [] then
        ["Contains informal/pidgin patterns: "
          ++ String.intercalate ", " (compute_keyword_score text).pidgin] else [])
      ++ (((analyze_text expand hostname ml text).url_infos.filter
            (fun ui => decide (ui.link_score > 0.25))).map
          (fun ui => "Suspicious link detected: " ++ ui.original_url ++ " -> " ++ ui.expanded_url))
      ++ (if ml.available = true ∧ optStrTruthy ml.label = true then
        ["ML classifier: " ++ ml.label.getD "" ++ " (" ++ format2 ml.score ++ ")"] else []) := by
  intro e hn ml t
  simp only [analyze_text]
  rw [foldl_reasons]
  split_ifs <;> simp [List.append_assoc]

/-- C9: with no URL extracted and ML unavailable,
`finalScore = round3(0.6 × keywordScore) ≤ 0.6`, so the verdict can never
be SCAM. -/
theorem claim_C9_theorem :
    ∀ (expand : String → String) (hostname : String → Option String)
      (ml : MLResult) (text : String),
    extract_urls text = [] → ml.available = false →
    ((analyze_text expand hostname ml text).final_score
        = round3 (0.6 * (compute_keyword_score text).score)
      ∧ (analyze_text expand hostname ml text).final_score ≤ 0.6
      ∧ verdict_of ((analyze_text expand hostname ml text).final_score) ≠ "SCAM") := by
  intro e hn ml t hurl hml
  have hfs : (analyze_text e hn ml t).final_score
      = round3 (0.6 * (compute_keyword_score t).score) := by
    rw [analyze_final_score, hurl]
    simp only [List.map_nil]
    unfold fuse_score
    rw [hml]
    norm_num [url_suspicious_count, mul_comm]
  have hb : (analyze_text e hn ml t).final_score ≤ 0.6 := by
    rw [hfs]
    have h1 : 0.6 * (compute_keyword_score t).score ≤ 0.6 := by
      nlinarith [(keyword_score_bounds t).2, (keyword_score_bounds t).1]
    exact (round3_mono h1).trans_eq (by with_unfolding_all decide)
  refine ⟨hfs, hb, ?_⟩
  unfold verdict_of
  have hlt : ¬ ((analyze_text e hn ml t).final_score ≥ 0.7) := by
    intro hge
    nlinarith
  rw [if_neg hlt]
  split_ifs <;> decide

/-- C9, witness: the URL-free message `"hello"` with ML unavailable. -/
theorem claim_C9_witness :
    (extract_urls "hello" = [] ∧ mlOff.available = false)
    ∧ ((analyze_text (fun u => u) (fun _ => none) mlOff "hello").final_score
        = round3 (0.6 * (compute_keyword_score "hello").score)
      ∧ (analyze_text (fun u => u) (fun _ => none) mlOff "hello").final_score ≤ 0.6
      ∧ verdict_of ((analyze_text (fun u => u) (fun _ => none) mlOff
          "hello").final_score) ≠ "SCAM") :=
  ⟨⟨by decide, rfl⟩,
    claim_C9_theorem (fun u => u) (fun _ => none) mlOff "hello" (by decide) rfl⟩

/-- C10: a URL whose expanded form yields an empty/unparseable hostname
produces a heuristic record with `isShortener = false` and
`linkScore = 0` (on top of the zeroed tld/dash/length/substring defaults),
hence it never satisfies the `> 0.3` counting predicate nor the `> 0.25`
reason predicate. -/
theorem claim_C10_theorem :
    ∀ (expand : String → String) (hostname : String → Option String) (u : String),
    domain_from_url hostname (expand u) = "" →
    ((process_url expand hostname u).is_shortener = false
    ∧ (process_url expand hostname u).link_score = 0
    ∧ (process_url expand hostname u).suspicious_tld = false
    ∧ (process_url expand hostname u).has_dash = false
    ∧ (process_url expand hostname u).length = 0
    ∧ (process_url expand hostname u).suspicious_substrings = []
    ∧ ¬((process_url expand hostname u).link_score > 0.3)
    ∧ ¬((process_url expand hostname u).link_score > 0.25)) := by
  intro expand hostname u h
  have hsc : shortener_check "" = false := by decide
  simp only [process_url, h, hsc, domain_heuristics]
  norm_num [min_def]

/-- C10, witness: a scheme-less URL whose hostname the parser cannot
produce. -/
theorem claim_C10_witness :
    domain_from_url (fun _ => none) ((fun (u : String) => u) "x") = ""
    ∧ ((process_url (fun u => u) (fun _ => none) "x").is_shortener = false
    ∧ (process_url (fun u => u) (fun _ => none) "x").link_score = 0
    ∧ (process_url (fun u => u) (fun _ => none) "x").suspicious_tld = false
    ∧ (process_url (fun u => u) (fun _ => none) "x").has_dash = false
    ∧ (process_url (fun u => u) (fun _ => none) "x").length = 0
    ∧ (process_url (fun u => u) (fun _ => none) "x").suspicious_substrings = []
    ∧ ¬((process_url (fun u => u) (fun _ => none) "x").link_score > 0.3)
    ∧ ¬((process_url (fun u => u) (fun _ => none) "x").link_score > 0.25)) :=
  ⟨rfl, claim_C10_theorem (fun u => u) (fun _ => none) "x" rfl⟩

end NaijaBot
